import Mathlib

/-!
Shallow embedding of the self-update pipeline of
`universal-android-debloater-next-generation` (`src/main.rs`), together
with theorems settling the specification claims about it.

The embedding follows the Rust source function by function:
* `UpdateError` mirrors the `UpdateError` enum (the payloads of
  `Timeout(u32)` are kept; the `reqwest::Error` payload of `Download`
  is abstracted away).
* `retryRun` mirrors the retry loop shared verbatim by
  `get_latest_release` (lines 72-84) and `download_with_retries`
  (lines 93-111): each network attempt is scripted as an `Attempt`
  value, the loop consumes one scripted attempt per iteration, and the
  function returns `none` when the scripted trace is exhausted with the
  loop still running (modelling an unfinished / diverging run), plus
  the list of backoff sleeps performed, in order.
* `perform_self_update` mirrors the orchestrator (lines 29-60), with
  the download and extraction stages abstracted as oracle results and a
  flag recording whether the download stage was ever entered.
* `extract_binary` mirrors the archive installer (lines 114-132) over a
  scripted stream of tar entries.
-/

set_option autoImplicit false

namespace UADNG

/-- The `UpdateError` enum of `src/main.rs` lines 15-27.  `Timeout`
keeps its `u32` attempt-count payload (as a `Nat`); the error payload
of `Download` is abstracted away. -/
inductive UpdateError where
  | Timeout (attempts : Nat)
  | RateLimited
  | Download
  | Extraction
  | InvalidBinary
  deriving DecidableEq

/-- One scripted network attempt, as classified by the `match` in the
retry loops: an HTTP success status (with the subsequent body handling
already folded into `body`), an HTTP 429 status, any other non-success
status, or a transport-level error. -/
inductive Attempt (α : Type) where
  | okSuccess (body : Except UpdateError α)
  | ok429
  | okOther
  | errTransport

/-- The fixed backoff schedule literal of lines 82 and 109. -/
def backoffSchedule : List Nat := [1000, 2000, 3000, 5000, 8000]

/-- `let max = 5` of lines 70 and 91. -/
def max_attempts : Nat := 5

/-- Line 82 / 109:
`[1000,2000,3000,5000,8000][(attempts.saturating_sub(1) as usize).min(4)]`.
Natural-number subtraction is exactly `saturating_sub`. -/
def backoff_ms (attempts : Nat) : Nat :=
  backoffSchedule.getD (min (attempts - 1) 4) 0

/-- The retry loop shared by `get_latest_release` (lines 72-84) and
`download_with_retries` (lines 93-111).  `attempts` is the counter
value before the `attempts += 1` at the top of the iteration.  Returns
the loop outcome (`none` = the scripted responses ran out with the
loop still iterating) and the list of backoff sleeps performed. -/
def retryRun {α : Type} : List (Attempt α) → Nat → Option (Except UpdateError α) × List Nat
  | [], _ => (none, [])
  | Attempt.okSuccess body :: _, _ => (some body, [])
  | Attempt.ok429 :: rest, attempts =>
      let r := retryRun rest (attempts + 1)
      (r.1, backoff_ms (attempts + 1) :: r.2)
  | Attempt.errTransport :: rest, attempts =>
      if attempts + 1 < max_attempts then
        let r := retryRun rest (attempts + 1)
        (r.1, backoff_ms (attempts + 1) :: r.2)
      else
        (some (Except.error UpdateError.Download), [])
  | Attempt.okOther :: _, _ => (some (Except.error UpdateError.RateLimited), [])

/-- A release-metadata document, stand-in for `serde_json::Value`. -/
inductive Json where
  | null
  | bool (b : Bool)
  | num (n : Int)
  | str (s : String)
  | arr (xs : List Json)
  | obj (fields : List (String × Json))

/-- `get_latest_release` (lines 62-85): the retry loop started with the
counter at 0, over scripted attempts whose successful body is the
parsed release document. -/
def get_latest_release (responses : List (Attempt Json)) :
    Option (Except UpdateError Json) × List Nat :=
  retryRun responses 0

/-- `download_with_retries` (lines 87-112): the same retry loop, the
successful body being the streamed write of the archive to disk. -/
def download_with_retries (responses : List (Attempt Unit)) :
    Option (Except UpdateError Unit) × List Nat :=
  retryRun responses 0

/-- The JSON field key of line 37. -/
def tagNameKey : String := "tag_name"

/-- The JSON field key of line 48. -/
def assetsKey : String := "assets"

/-- The JSON field key of line 48. -/
def urlKey : String := "browser_download_url"

/-- The empty string default of `unwrap_or("")` on line 39. -/
def emptyStr : String := ""

/-- `serde_json` object indexing `value[key]`: the field's value when
`value` is an object carrying the key, `Null` otherwise. -/
def jsonGet (j : Json) (key : String) : Json :=
  match j with
  | Json.obj fields =>
      match fields.find? (fun p => p.1 == key) with
      | some p => p.2
      | none => Json.null
  | _ => Json.null

/-- `serde_json` array indexing `value[i]`: the element when `value`
is an array long enough, `Null` otherwise. -/
def jsonIdx (j : Json) (i : Nat) : Json :=
  match j with
  | Json.arr xs => xs.getD i Json.null
  | _ => Json.null

/-- `Value::as_str`: `Some` exactly on JSON strings. -/
def jsonAsStr : Json → Option String
  | Json.str s => some s
  | _ => none

/-- `str::trim_start_matches('v')` (line 40): repeatedly removes the
leading character while it is `v`. -/
def trimLeadingVs : List Char → List Char
  | [] => []
  | c :: rest => if c = 'v' then trimLeadingVs rest else c :: rest

/-- Modelled from the spec: §3 VersionTag describes the token as
`tag_name` with "a single leading prefix character" removed when
present — i.e. at most one leading `v` is stripped.  Kept separate so
it can be compared against the source's `trimLeadingVs`. -/
def specStripSingleLeadingV : List Char → List Char
  | [] => []
  | c :: rest => if c = 'v' then rest else c :: rest

/-- Rust `&str` ordering (`tag <= current`, line 42): lexicographic on
the character sequences.  (Byte-wise UTF-8 order and code-point order
coincide.) -/
def strLe : List Char → List Char → Bool
  | [], _ => true
  | _ :: _, [] => false
  | x :: xs, y :: ys =>
      if x < y then true
      else if y < x then false
      else strLe xs ys

/-- Lines 37-40: the comparison token derived from the release
document — `latest["tag_name"].as_str().unwrap_or("").trim_start_matches('v')`. -/
def tagOf (latest : Json) : List Char :=
  trimLeadingVs ((Option.getD (jsonAsStr (jsonGet latest tagNameKey)) emptyStr).data)

/-- Lines 48-51: `latest["assets"][0]["browser_download_url"].as_str()`. -/
def assetUrl (latest : Json) : Option String :=
  jsonAsStr (jsonGet (jsonIdx (jsonGet latest assetsKey) 0) urlKey)

/-- Terminal outcome of the orchestrator: `Ok(())` from the version
check, the `process::exit(0)` path after a successful install, or an
error propagated to the caller. -/
inductive Outcome where
  | upToDate
  | updated
  | failed (e : UpdateError)
  deriving DecidableEq

/-- Result of one orchestrator run, with a flag recording whether the
download stage (line 54, and hence the temporary file) was reached. -/
structure RunResult where
  outcome : Outcome
  downloadAttempted : Bool
  deriving DecidableEq

/-- `perform_self_update` (lines 29-60) after a successful
`get_latest_release` returning `latest`.  The download
(`download_with_retries`, line 54) and installation (`extract_binary`,
line 55) stages are abstracted as oracle results, consulted only if
control reaches them. -/
def perform_self_update (current : List Char) (latest : Json)
    (download : Except UpdateError Unit) (extract : Except UpdateError Unit) : RunResult :=
  let tag := tagOf latest
  if strLe tag current then
    { outcome := Outcome.upToDate, downloadAttempted := false }
  else
    match assetUrl latest with
    | none => { outcome := Outcome.failed UpdateError.InvalidBinary, downloadAttempted := false }
    | some _ =>
        match download with
        | Except.error e => { outcome := Outcome.failed e, downloadAttempted := true }
        | Except.ok _ =>
            match extract with
            | Except.error e => { outcome := Outcome.failed e, downloadAttempted := true }
            | Except.ok _ => { outcome := Outcome.updated, downloadAttempted := true }

/-- `l₁.isPrefixChars l₂`: the first list is an initial segment of the
second (helper for Rust `str::contains`). -/
def isPrefixChars : List Char → List Char → Bool
  | [], _ => true
  | _ :: _, [] => false
  | a :: ra, b :: rb => a = b && isPrefixChars ra rb

/-- Rust `str::contains(pat)` for a string pattern: `pat` occurs as a
contiguous substring of the haystack. -/
def containsSub : List Char → List Char → Bool
  | [], sub => sub.isEmpty
  | c :: rest, sub => isPrefixChars sub (c :: rest) || containsSub rest sub

/-- First recognized binary-name substring (line 123). -/
def subUniversal : String := "universal-android-debloater"

/-- Second recognized binary-name substring (line 123). -/
def subUadng : String := "uadng"

/-- The test on line 123:
`name.contains("universal-android-debloater") || name.contains("uadng")`. -/
def matchesBinary (name : String) : Bool :=
  containsSub name.data subUniversal.data || containsSub name.data subUadng.data

/-- `Path::join` of line 125 for a bare file name. -/
def pathJoin (dir name : String) : String := dir ++ "/" ++ name

/-- One scripted item of the tar entry stream (lines 119-130): the
iterator yielding `Err` (line 120), `entry.path()` failing (line 121),
or an entry whose `file_name().and_then(to_str)` is `name` (`none`
when that chain yields nothing, line 122) and whose `unpack` would
succeed iff `unpackOk` (lines 124-126). -/
inductive StreamItem where
  | entryErr
  | pathErr
  | entry (name : Option String) (unpackOk : Bool)
  deriving DecidableEq

/-- The entry loop of `extract_binary` (lines 119-131).  Returns the
result (`Except.ok` carries the unpack destination) and the number of
stream items consumed — an item not counted was never inspected. -/
def extractEntries (targetDir : String) : List StreamItem → Except UpdateError String × Nat
  | [] => (Except.error UpdateError.InvalidBinary, 0)
  | StreamItem.entryErr :: _ => (Except.error UpdateError.Extraction, 1)
  | StreamItem.pathErr :: _ => (Except.error UpdateError.Extraction, 1)
  | StreamItem.entry none _ :: rest =>
      let r := extractEntries targetDir rest
      (r.1, r.2 + 1)
  | StreamItem.entry (some name) unpackOk :: rest =>
      if matchesBinary name then
        (if unpackOk then Except.ok (pathJoin targetDir name)
         else Except.error UpdateError.Extraction, 1)
      else
        let r := extractEntries targetDir rest
        (r.1, r.2 + 1)

/-- `extract_binary` (lines 114-132): `File::open` failing (line 115)
or `archive.entries()` failing (line 119) yield `Extraction` before
any entry is inspected; otherwise the entry loop runs. -/
def extract_binary (openOk entriesOk : Bool) (targetDir : String)
    (items : List StreamItem) : Except UpdateError String × Nat :=
  if openOk = false then (Except.error UpdateError.Extraction, 0)
  else if entriesOk = false then (Except.error UpdateError.Extraction, 0)
  else extractEntries targetDir items

/-- A stream item the loop steps over without returning: an entry
whose name chain yields nothing, or a named entry that does not match
the binary naming convention. -/
def skippable : StreamItem → Bool
  | StreamItem.entry none _ => true
  | StreamItem.entry (some name) _ => !matchesBinary name
  | _ => false

/-- A stream item at which the loop stops with `Extraction`: a failing
iterator step, a failing `entry.path()`, or a matching entry whose
`unpack` fails. -/
def errorStep : StreamItem → Bool
  | StreamItem.entryErr => true
  | StreamItem.pathErr => true
  | StreamItem.entry none _ => false
  | StreamItem.entry (some name) unpackOk => matchesBinary name && !unpackOk

/-- Current version string for the spec's second comparison example. -/
def cur100 : String := "1.0.0"

/-- Current version string for the spec's first comparison example. -/
def cur110 : String := "1.1.0"

/-- Release document with tag `v1.2.0` and one downloadable asset. -/
def relV120 : Json :=
  Json.obj [(tagNameKey, Json.str ("v1.2.0")),
            (assetsKey, Json.arr [Json.obj [(urlKey, Json.str ("http://x"))]])]

/-- Release document with tag `v1.0.0`. -/
def relV100 : Json := Json.obj [(tagNameKey, Json.str ("v1.0.0"))]

/-- Release document with no `assets` field and a tag older than `1.0.0`. -/
def relNoAssetsLowTag : Json := Json.obj [(tagNameKey, Json.str ("v0.0.1"))]

/-- Release document with no `assets` field and a tag newer than `1.0.0`. -/
def relNoAssetsHighTag : Json := Json.obj [(tagNameKey, Json.str ("v2.0.0"))]

/-- Release document with no `tag_name` field at all. -/
def relNoTag : Json := Json.obj []

/-- A tag with two leading `v` characters. -/
def tagVV : String := "vv1.2.3"


/-- Target directory used by the installer examples. -/
def binDir : String := "bin"

/-- Archive entry named `readme.txt` (matches nothing). -/
def entryReadme : StreamItem := StreamItem.entry (some ("readme.txt")) true

/-- Archive entry named `uadng-linux-x64` (matches `uadng`). -/
def entryBinary : StreamItem := StreamItem.entry (some ("uadng-linux-x64")) true

/-- Archive entry named `license.md` (matches nothing). -/
def entryLicense : StreamItem := StreamItem.entry (some ("license.md")) true


theorem retryRun_replicate_429_fst {α : Type} :
    ∀ (n a : Nat), (retryRun (List.replicate n (Attempt.ok429 : Attempt α)) a).1 = none := by
  intro n
  induction n with
  | zero => intro a; rfl
  | succ k ih =>
      intro a
      simp only [List.replicate, retryRun]
      exact ih (a + 1)

theorem retryRun_replicate_429_sleeps {α : Type} :
    ∀ (n a : Nat),
      ((retryRun (List.replicate n (Attempt.ok429 : Attempt α)) a).2).length = n := by
  intro n
  induction n with
  | zero => intro a; rfl
  | succ k ih =>
      intro a
      simp only [List.replicate, retryRun, List.length_cons]
      exact congrArg Nat.succ (ih (a + 1))


theorem retryRun_sleeps_getD {α : Type} :
    ∀ (rs : List (Attempt α)) (a i : Nat),
      i < ((retryRun rs a).2).length →
      ((retryRun rs a).2).getD i 0 = backoffSchedule.getD (min (a + i) 4) 0 := by
  intro rs
  induction rs with
  | nil => intro a i h; simp [retryRun] at h
  | cons r rest ih =>
      intro a i h
      cases r with
      | okSuccess body => simp [retryRun] at h
      | okOther => simp [retryRun] at h
      | ok429 =>
          cases i with
          | zero =>
              show backoff_ms (a + 1) = backoffSchedule.getD (min (a + 0) 4) 0
              simp [backoff_ms]
          | succ j =>
              have hj : j < ((retryRun rest (a + 1)).2).length := by
                simpa [retryRun] using h
              have := ih (a + 1) j hj
              have harith : a + 1 + j = a + (j + 1) := by omega
              calc ((retryRun (Attempt.ok429 :: rest) a).2).getD (j + 1) 0
                  = ((retryRun rest (a + 1)).2).getD j 0 := rfl
                _ = backoffSchedule.getD (min (a + 1 + j) 4) 0 := this
                _ = backoffSchedule.getD (min (a + (j + 1)) 4) 0 := by rw [harith]
      | errTransport =>
          by_cases hlt : a + 1 < max_attempts
          · cases i with
            | zero =>
                have : ((retryRun (Attempt.errTransport :: rest) a).2).getD 0 0
                    = backoff_ms (a + 1) := by
                  simp [retryRun, hlt]
                rw [this]
                simp [backoff_ms]
            | succ j =>
                have hj : j < ((retryRun rest (a + 1)).2).length := by
                  simpa [retryRun, hlt] using h
                have hstep : ((retryRun (Attempt.errTransport :: rest) a).2).getD (j + 1) 0
                    = ((retryRun rest (a + 1)).2).getD j 0 := by
                  simp [retryRun, hlt]
                have := ih (a + 1) j hj
                have harith : a + 1 + j = a + (j + 1) := by omega
                rw [hstep, this, harith]
          · simp [retryRun, hlt] at h

/-- Claim C1: the claim states that when every attempt up to
`max_attempts` (= 5) yields an HTTP 429 response, the retry engine
terminates after those attempts with `RateLimited`.  The code does
not: the 429 match arm (lines 76 and 103) carries no `attempts < max`
guard, so after any number `n` of consecutive 429 responses — in
particular beyond 5 — both loops are still iterating (`none`), having
slept after every one of the `n` attempts, and `RateLimited` has not
been returned. -/
theorem rate_limited_attempts_never_terminate :
    ∀ n : Nat,
      (get_latest_release (List.replicate n Attempt.ok429)).1 = none ∧
      (download_with_retries (List.replicate n Attempt.ok429)).1 = none ∧
      ((get_latest_release (List.replicate n Attempt.ok429)).2).length = n := by
  intro n
  exact ⟨retryRun_replicate_429_fst n 0, retryRun_replicate_429_fst n 0,
    retryRun_replicate_429_sleeps n 0⟩

/-- Claim C2, counterexample: five consecutive transport-level errors
exhaust `get_latest_release`'s attempts, and the result is the wrapped
`Download` error, not `Timeout` as the claim states. -/
theorem transport_exhaustion_not_timeout_counterexample :
    (get_latest_release (List.replicate 5 Attempt.errTransport)).1
        = some (Except.error UpdateError.Download) ∧
      UpdateError.Download ≠ UpdateError.Timeout 5 :=
  ⟨rfl, by decide⟩

/-- Claim C2, amended: when `get_latest_release`'s transport attempts
exhaust on network errors it fails with the wrapped `Download` error
(the `Timeout` variant is never produced); `RateLimited` is returned
immediately upon any non-success, non-429 HTTP status; and repeated
rate-limit responses never exhaust the attempts — the loop keeps
retrying them. -/
theorem transport_error_classification :
    (∀ rest : List (Attempt Json),
        (get_latest_release (List.replicate 5 Attempt.errTransport ++ rest)).1
          = some (Except.error UpdateError.Download)) ∧
    (∀ rest : List (Attempt Json),
        (get_latest_release (Attempt.okOther :: rest)).1
          = some (Except.error UpdateError.RateLimited)) ∧
    (∀ n : Nat, (get_latest_release (List.replicate n Attempt.ok429)).1 = none) :=
  ⟨fun _ => rfl, fun _ => rfl, fun n => retryRun_replicate_429_fst n 0⟩

/-- Claim C3: in both `get_latest_release` and `download_with_retries`,
for every attempt count `n` in `1..=5`, the backoff delay slept before
attempt `n + 1` (the `n`-th sleep of the run, when the run gets that
far) equals entry `min (n-1) 4` of the schedule
`[1000, 2000, 3000, 5000, 8000]`. -/
theorem backoff_delay_follows_schedule :
    ∀ (rsG : List (Attempt Json)) (rsD : List (Attempt Unit)) (n : Nat),
      1 ≤ n → n ≤ 5 →
      ((n - 1 < ((get_latest_release rsG).2).length →
          ((get_latest_release rsG).2).getD (n - 1) 0
            = backoffSchedule.getD (min (n - 1) 4) 0) ∧
       (n - 1 < ((download_with_retries rsD).2).length →
          ((download_with_retries rsD).2).getD (n - 1) 0
            = backoffSchedule.getD (min (n - 1) 4) 0)) := by
  intro rsG rsD n _ _
  constructor
  · intro h
    have := retryRun_sleeps_getD rsG 0 (n - 1) h
    simpa using this
  · intro h
    have := retryRun_sleeps_getD rsD 0 (n - 1) h
    simpa using this

/-- Claim C3, witness: a run of two rate-limited attempts sleeps
2000 ms before attempt 3, which is schedule entry `min 1 4`. -/
theorem backoff_delay_follows_schedule_witness :
    ((get_latest_release (List.replicate 2 Attempt.ok429)).2).getD 1 0
      = backoffSchedule.getD (min 1 4) 0 :=
  (backoff_delay_follows_schedule (List.replicate 2 Attempt.ok429) [] 2
    (by decide) (by decide)).1 (by decide)

/-- Claim C4: a transport-level error on each of attempts 1-4 followed
by an HTTP success on attempt 5 makes both retry loops return the
successful attempt's result rather than aborting early. -/
theorem transport_errors_then_success_returns_success :
    ∀ (v : Json) (restG : List (Attempt Json)) (restD : List (Attempt Unit)),
      (get_latest_release (List.replicate 4 Attempt.errTransport
          ++ Attempt.okSuccess (Except.ok v) :: restG)).1 = some (Except.ok v) ∧
      (download_with_retries (List.replicate 4 Attempt.errTransport
          ++ Attempt.okSuccess (Except.ok ()) :: restD)).1 = some (Except.ok ()) :=
  fun _ _ _ => ⟨rfl, rfl⟩

/-- Claim C5: the orchestrator reports up-to-date exactly when the
stripped tag is lexicographically at most the current version string
(and then attempts no download); when the tag is lexicographically
greater it proceeds with the update. -/
theorem update_decision_lexicographic :
    ∀ (current : List Char) (latest : Json)
      (download extract : Except UpdateError Unit),
      ((perform_self_update current latest download extract).outcome = Outcome.upToDate
          ↔ strLe (tagOf latest) current = true) ∧
      (strLe (tagOf latest) current = true →
        (perform_self_update current latest download extract).downloadAttempted = false) := by
  intro current latest download extract
  cases hb : strLe (tagOf latest) current with
  | true =>
      constructor
      · simp [perform_self_update, hb]
      · intro _
        simp [perform_self_update, hb]
  | false =>
      have hne : (perform_self_update current latest download extract).outcome
          ≠ Outcome.upToDate := by
        cases hA : assetUrl latest with
        | none => simp [perform_self_update, hb, hA]
        | some u =>
            cases download with
            | error e => simp [perform_self_update, hb, hA]
            | ok _ =>
                cases extract with
                | error e => simp [perform_self_update, hb, hA]
                | ok _ => simp [perform_self_update, hb, hA]
      constructor
      · constructor
        · intro hEq
          exact absurd hEq hne
        · intro hT
          exact absurd hT (by decide)
      · intro hT
        exact absurd hT (by decide)

/-- Claim C5, witness: tag `v1.0.0` against current `1.0.0` reports
up-to-date and attempts no download; tag `v1.2.0` against current
`1.1.0` does not report up-to-date. -/
theorem update_decision_lexicographic_witness :
    (perform_self_update ((cur100).data) relV100 (Except.ok ()) (Except.ok ())).outcome
        = Outcome.upToDate ∧
      (perform_self_update ((cur100).data) relV100
          (Except.ok ()) (Except.ok ())).downloadAttempted = false ∧
      (perform_self_update ((cur110).data) relV120 (Except.ok ()) (Except.ok ())).outcome
        ≠ Outcome.upToDate :=
  ⟨((update_decision_lexicographic ((cur100).data) relV100
      (Except.ok ()) (Except.ok ())).1).mpr (by decide),
   (update_decision_lexicographic ((cur100).data) relV100
      (Except.ok ()) (Except.ok ())).2 (by decide),
   fun h => absurd (((update_decision_lexicographic ((cur110).data) relV120
      (Except.ok ()) (Except.ok ())).1).mp h) (by decide)⟩

/-- Claim C6, counterexample: on `tag_name = "vv1.2.3"` the source's
`trim_start_matches('v')` yields `"1.2.3"`, while removing exactly one
leading prefix character (the claim's description) yields `"v1.2.3"`. -/
theorem single_strip_counterexample :
    trimLeadingVs ((tagVV).data) ≠ specStripSingleLeadingV ((tagVV).data) ∧
      trimLeadingVs ((tagVV).data) = ("1.2.3").data ∧
      specStripSingleLeadingV ((tagVV).data) = ("v1.2.3").data :=
  ⟨by decide, by decide, by decide⟩

/-- Claim C6, amended: the version token is derived from `tag_name` by
removing every leading `v` character (the prefix is stripped
repeatedly), leaving the string unchanged when it does not start with
`v` — i.e. the strip is exactly `dropWhile (· = 'v')`. -/
theorem trim_removes_all_leading_vs :
    ∀ s : List Char, trimLeadingVs s = List.dropWhile (fun c => c == 'v') s := by
  intro s
  induction s with
  | nil => rfl
  | cons c rest ih =>
      by_cases h : c = 'v'
      · subst h
        simp [trimLeadingVs, List.dropWhile_cons, ih]
      · have hbeq : (c == 'v') = false := by
          simp [h]
        simp [trimLeadingVs, List.dropWhile_cons, h, hbeq]

theorem assetUrl_none_of_assets_null {latest : Json}
    (h : jsonGet latest assetsKey = Json.null) : assetUrl latest = none := by
  unfold assetUrl
  rw [h]
  rfl

theorem assetUrl_none_of_assets_empty {latest : Json}
    (h : jsonGet latest assetsKey = Json.arr []) : assetUrl latest = none := by
  unfold assetUrl
  rw [h]
  rfl

/-- Claim C9, counterexample: a release document with no `assets`
array whose (stripped, here `0.0.1`) tag is not newer than the current
version `1.0.0` makes the orchestrator report up-to-date — it does not
fail with `InvalidBinary`, contrary to the claim's unconditional
reading. -/
theorem missing_assets_up_to_date_counterexample :
    jsonGet relNoAssetsLowTag assetsKey = Json.null ∧
      (perform_self_update ((cur100).data) relNoAssetsLowTag
          (Except.ok ()) (Except.ok ())).outcome
        ≠ Outcome.failed UpdateError.InvalidBinary ∧
      perform_self_update ((cur100).data) relNoAssetsLowTag (Except.ok ()) (Except.ok ())
        = { outcome := Outcome.upToDate, downloadAttempted := false } :=
  ⟨rfl, by decide, by decide⟩

/-- Claim C9, amended: when the stripped tag is lexicographically
newer than the current version, a release document whose `assets`
array is missing, empty, or whose first asset lacks a string
`browser_download_url` makes the orchestrator fail with
`InvalidBinary` with the download stage never entered; when the tag is
not newer, the orchestrator reports up-to-date, again without
downloading. -/
theorem missing_assets_invalid_binary :
    ∀ (current : List Char) (latest : Json)
      (download extract : Except UpdateError Unit),
      (jsonGet latest assetsKey = Json.null ∨
        jsonGet latest assetsKey = Json.arr [] ∨
        assetUrl latest = none) →
      perform_self_update current latest download extract
        = if strLe (tagOf latest) current
          then { outcome := Outcome.upToDate, downloadAttempted := false }
          else { outcome := Outcome.failed UpdateError.InvalidBinary,
                 downloadAttempted := false } := by
  intro current latest download extract hcase
  have hA : assetUrl latest = none := by
    rcases hcase with h | h | h
    · exact assetUrl_none_of_assets_null h
    · exact assetUrl_none_of_assets_empty h
    · exact h
  cases hb : strLe (tagOf latest) current with
  | true => simp [perform_self_update, hb]
  | false => simp [perform_self_update, hb, hA]

/-- Claim C9, witness: with current version `1.0.0` and a release
document carrying tag `v2.0.0` but no `assets` field, the orchestrator
fails with `InvalidBinary` and the download stage is never entered. -/
theorem missing_assets_invalid_binary_witness :
    perform_self_update ((cur100).data) relNoAssetsHighTag (Except.ok ()) (Except.ok ())
      = { outcome := Outcome.failed UpdateError.InvalidBinary,
          downloadAttempted := false } := by
  have h := missing_assets_invalid_binary ((cur100).data) relNoAssetsHighTag
    (Except.ok ()) (Except.ok ()) (Or.inr (Or.inr (by decide)))
  rw [h]
  decide

/-- Claim C10: when `tag_name` is absent or not a string the tag
defaults to the empty string, which is lexicographically at most every
current version string, so the orchestrator reports up-to-date with no
error raised and no download attempted. -/
theorem missing_tag_up_to_date :
    ∀ (current : List Char) (latest : Json)
      (download extract : Except UpdateError Unit),
      jsonAsStr (jsonGet latest tagNameKey) = none →
      perform_self_update current latest download extract
        = { outcome := Outcome.upToDate, downloadAttempted := false } := by
  intro current latest download extract h
  have htag : tagOf latest = [] := by
    unfold tagOf
    rw [h]
    decide
  have hle : strLe (tagOf latest) current = true := by
    rw [htag]
    rfl
  simp [perform_self_update, hle]

/-- Claim C10, witness: a release document with no `tag_name` field at
all, against current version `1.0.0`. -/
theorem missing_tag_up_to_date_witness :
    perform_self_update ((cur100).data) relNoTag (Except.ok ()) (Except.ok ())
      = { outcome := Outcome.upToDate, downloadAttempted := false } :=
  missing_tag_up_to_date ((cur100).data) relNoTag (Except.ok ()) (Except.ok ()) rfl

theorem extractEntries_append_skippable (td : String) :
    ∀ (pre rest : List StreamItem), (∀ x ∈ pre, skippable x = true) →
      extractEntries td (pre ++ rest)
        = ((extractEntries td rest).1, (extractEntries td rest).2 + pre.length) := by
  intro pre
  induction pre with
  | nil => intro rest _; simp
  | cons x xs ih =>
      intro rest h
      have hx : skippable x = true := h x (List.mem_cons_self x xs)
      have hxs : ∀ y ∈ xs, skippable y = true := fun y hy => h y (List.mem_cons_of_mem x hy)
      cases x with
      | entryErr => simp [skippable] at hx
      | pathErr => simp [skippable] at hx
      | entry name unpackOk =>
          cases name with
          | none =>
              simp only [List.cons_append, extractEntries, List.append_eq]
              rw [ih rest hxs]
              simp [Nat.add_assoc]
          | some nm =>
              have hm : matchesBinary nm = false := by
                simp [skippable] at hx
                exact hx
              simp only [List.cons_append, extractEntries, hm, Bool.false_eq_true, if_false,
                List.append_eq]
              rw [ih rest hxs]
              simp [Nat.add_assoc]

/-- Claim C7: when the entry stream is a run of skipped entries
followed by a matching entry whose unpack succeeds, `extract_binary`
unpacks exactly that entry to `targetDir` joined with its file name
and returns success having consumed only the items up to and including
the match — entries after it are never inspected. -/
theorem extract_unpacks_first_match :
    ∀ (targetDir : String) (pre post : List StreamItem) (name : String),
      (∀ x ∈ pre, skippable x = true) → matchesBinary name = true →
      extract_binary true true targetDir
          (pre ++ StreamItem.entry (some name) true :: post)
        = (Except.ok (pathJoin targetDir name), pre.length + 1) := by
  intro td pre post name hpre hm
  show extractEntries td (pre ++ StreamItem.entry (some name) true :: post) = _
  rw [extractEntries_append_skippable td pre _ hpre]
  simp [extractEntries, hm, Nat.add_comm]

/-- Claim C7, witness: on the stream `readme.txt`, `uadng-linux-x64`,
`license.md`, exactly the second entry is unpacked, success returns
after consuming two items, and the third item is never inspected. -/
theorem extract_unpacks_first_match_witness :
    extract_binary true true binDir [entryReadme, entryBinary, entryLicense]
      = (Except.ok (pathJoin binDir ("uadng-linux-x64")), 2) :=
  extract_unpacks_first_match binDir [entryReadme] [entryLicense]
    ("uadng-linux-x64") (by decide) (by decide)

theorem extractEntries_invalidBinary_iff (td : String) :
    ∀ items : List StreamItem,
      ((extractEntries td items).1 = Except.error UpdateError.InvalidBinary
        ↔ ∀ x ∈ items, skippable x = true) := by
  intro items
  induction items with
  | nil => simp [extractEntries]
  | cons x xs ih =>
      cases x with
      | entryErr => simp [extractEntries, skippable]
      | pathErr => simp [extractEntries, skippable]
      | entry name unpackOk =>
          cases name with
          | none => simp [extractEntries, skippable, ih]
          | some nm =>
              by_cases hm : matchesBinary nm = true
              · cases unpackOk <;> simp [extractEntries, skippable, hm]
              · have hm2 : matchesBinary nm = false := by
                  cases hmb : matchesBinary nm
                  · rfl
                  · exact absurd hmb hm
                simp [extractEntries, skippable, hm2, ih]

theorem extractEntries_error_cases (td : String) :
    ∀ (items : List StreamItem) (e : UpdateError),
      (extractEntries td items).1 = Except.error e →
      e = UpdateError.Extraction ∨ e = UpdateError.InvalidBinary := by
  intro items
  induction items with
  | nil =>
      intro e h
      simp [extractEntries] at h
      exact Or.inr h.symm
  | cons x xs ih =>
      intro e h
      cases x with
      | entryErr =>
          simp [extractEntries] at h
          exact Or.inl h.symm
      | pathErr =>
          simp [extractEntries] at h
          exact Or.inl h.symm
      | entry name unpackOk =>
          cases name with
          | none =>
              simp only [extractEntries] at h
              exact ih e h
          | some nm =>
              by_cases hm : matchesBinary nm = true
              · cases unpackOk with
                | true => simp [extractEntries, hm] at h
                | false =>
                    simp [extractEntries, hm] at h
                    exact Or.inl h.symm
              · have hm2 : matchesBinary nm = false := by
                  cases hmb : matchesBinary nm
                  · rfl
                  · exact absurd hmb hm
                simp only [extractEntries, hm2, Bool.false_eq_true, if_false] at h
                exact ih e h

/-- Claim C8: `extract_binary` fails with `InvalidBinary` exactly when
opening and iteration set up fine and the stream is exhausted with
every entry skipped (no recognized name); a failure opening or
starting iteration yields `Extraction`; every error it can return is
`Extraction` or `InvalidBinary` (never the underlying cause); and any
failing step — iterator error, `path()` error, or a matching entry
whose unpack fails — reached after skipped entries yields the generic
`Extraction` error. -/
theorem extract_error_classification :
    ∀ (openOk entriesOk : Bool) (targetDir : String) (items : List StreamItem),
      ((extract_binary openOk entriesOk targetDir items).1
          = Except.error UpdateError.InvalidBinary
        ↔ (openOk = true ∧ entriesOk = true ∧ ∀ x ∈ items, skippable x = true)) ∧
      (openOk = false ∨ entriesOk = false →
        (extract_binary openOk entriesOk targetDir items).1
          = Except.error UpdateError.Extraction) ∧
      (∀ e : UpdateError,
        (extract_binary openOk entriesOk targetDir items).1 = Except.error e →
        e = UpdateError.Extraction ∨ e = UpdateError.InvalidBinary) ∧
      (∀ (pre rest : List StreamItem) (bad : StreamItem),
        (∀ x ∈ pre, skippable x = true) → errorStep bad = true →
        (extract_binary true true targetDir (pre ++ bad :: rest)).1
          = Except.error UpdateError.Extraction) := by
  intro openOk entriesOk td items
  refine ⟨?_, ?_, ?_, ?_⟩
  · cases openOk
    · simp [extract_binary]
    · cases entriesOk
      · simp [extract_binary]
      · simpa [extract_binary] using extractEntries_invalidBinary_iff td items
  · intro h
    cases openOk
    · simp [extract_binary]
    · cases entriesOk
      · simp [extract_binary]
      · rcases h with h | h <;> exact absurd h (by decide)
  · intro e he
    cases openOk
    · simp [extract_binary] at he
      exact Or.inl he.symm
    · cases entriesOk
      · simp [extract_binary] at he
        exact Or.inl he.symm
      · have he2 : (extractEntries td items).1 = Except.error e := by
          simpa [extract_binary] using he
        exact extractEntries_error_cases td items e he2
  · intro pre rest bad hpre hbad
    show (extractEntries td (pre ++ bad :: rest)).1 = _
    rw [extractEntries_append_skippable td pre _ hpre]
    cases bad with
    | entryErr => rfl
    | pathErr => rfl
    | entry name unpackOk =>
        cases name with
        | none => simp [errorStep] at hbad
        | some nm =>
            simp only [errorStep, Bool.and_eq_true, Bool.not_eq_eq_eq_not, Bool.not_true] at hbad
            rcases hbad with ⟨hm, hu⟩
            subst hu
            simp [extractEntries, hm]

/-- Claim C8, witness: a stream whose single entry is an unmatched
name is exhausted and fails with `InvalidBinary`. -/
theorem extract_error_classification_witness :
    (extract_binary true true binDir [entryReadme]).1
      = Except.error UpdateError.InvalidBinary :=
  ((extract_error_classification true true binDir [entryReadme]).1).mpr
    ⟨rfl, rfl, by decide⟩

end UADNG
